import Mathlib

/-!
Verification of the transcript-conversion core of `aws-audio-transcribe`.

The repository has two scripts, each with a `process_transcript` function:

* `convert-aws-transcript-by-jobname.py` (Schema A): a word-item stream with
  timestamps is joined to a speaker-segment stream by interval containment,
  then consecutive same-speaker segments are merged into turns and rendered.
* `convert-aws-transcript.py` (Schema B): segments already carry their text;
  only the merge-and-render loop runs.

The shallow embedding below models the payload structures the claims exercise
(`results`, `speaker_labels`, `speakers_count`, `segments`, `items`,
`audio_segments`), with `Option` marking keys whose absence the code can
observe (a missing key raises `KeyError` in Python, modelled as
`PyErr.keyError`).  Times are strings parsed with `float(...)` in the source;
since the code only ever parses and compares them, they are modelled as
rationals.  `int(...)` coercion of the explicit speaker count is modelled by
`String.toInt?` (`none` models `ValueError`).  Python dicts of speaker names
are modelled as association lists with `List.lookup`; `dict.get(k, default)`
is `(names.lookup k).getD k`, which is total exactly as the Python is.
-/

/-- Model of Python's `str.strip()`: drop whitespace from both ends (the
strings at hand only ever carry ASCII whitespace, where the two agree). -/
def pyStrip (s : String) : String :=
  ⟨((s.data.dropWhile Char.isWhitespace).reverse.dropWhile
      Char.isWhitespace).reverse⟩

/-- Python-level exceptions that `process_transcript` can raise and that
propagate to the caller (`main` catches and reports them). -/
inductive PyErr where
  | keyError
  | valueError
  | indexError
  deriving DecidableEq

/-- Schema A word item: `results.items[i]`.  `start_time` / `end_time` are
`none` when the corresponding JSON key is absent (punctuation items);
`alternatives` lists each alternative's `content` in order.  The source only
ever reads `item['alternatives'][0]['content']`. -/
structure WordItem where
  start_time : Option ℚ
  end_time : Option ℚ
  alternatives : List String
  deriving DecidableEq

/-- Schema A speaker segment: `results.speaker_labels.segments[i]`.
`hasItems` models presence of the `'items'` key, which the source checks
(`if 'items' not in segment: continue`) but whose value it never reads. -/
structure SegA where
  speaker_label : String
  start_time : ℚ
  end_time : ℚ
  hasItems : Bool
  deriving DecidableEq

/-- `results.speaker_labels`: the explicit count field (raw string, absent =
`none`) and the segment list (absent = `none`). -/
structure LabelsBlock where
  speakers_count : Option String
  segments : Option (List SegA)

/-- `results` of a Schema A payload. -/
structure ResultsA where
  speaker_labels : Option LabelsBlock
  items : List WordItem

/-- A Schema A payload (`convert-aws-transcript-by-jobname.py`). -/
structure PayloadA where
  results : Option ResultsA

/-- Schema B segment: `results.audio_segments[i]`. -/
structure AudioSegment where
  speaker_label : String
  transcript : String
  deriving DecidableEq

/-- `results` of a Schema B payload. -/
structure ResultsB where
  audio_segments : Option (List AudioSegment)

/-- A Schema B payload (`convert-aws-transcript.py`). -/
structure PayloadB where
  results : Option ResultsB

/-- A flushed speaker turn: raw label plus accumulated text fragments. -/
structure Turn where
  speaker : String
  words : List String
  deriving DecidableEq

/-- Python renders `None` as the string `"None"` in an f-string; used only in
the (unreachable from the initial state) final flush with no current speaker. -/
def labelOf : Option String → String
  | some s => s
  | none => "None"

/-- One rendered transcript part, from the source f-string
`f"\n{speaker_name}: {' '.join(current_text)}"` with
`speaker_name = speaker_names.get(current_speaker, current_speaker)`. -/
def renderPart (names : List (String × String)) (speaker : String)
    (words : List String) : String :=
  "\n" ++ ((names.lookup speaker).getD speaker) ++ ": "
    ++ String.intercalate " " words

/-- Loop state of `process_transcript`: `transcript_parts` (generalised to any
emitted element type), `current_speaker`, `current_text`. -/
structure GSt (α : Type) where
  out : List α
  cur : Option String
  text : List String

/-- One iteration of the shared merge loop, on a `(speaker, fragments)` pair:
flush when the current speaker is set and differs
(`if current_speaker is not None and current_speaker != speaker`), then set
the speaker and extend the accumulated text.  `emit` is how a flushed turn is
recorded: `renderPart names` in the source's string-building loop, `Turn.mk`
for the turn-level view. -/
def stepG {α : Type} (emit : String → List String → α) (st : GSt α)
    (p : String × List String) : GSt α :=
  let st1 :=
    match st.cur with
    | some c => if c ≠ p.1 then GSt.mk (st.out ++ [emit c st.text]) st.cur [] else st
    | none => st
  GSt.mk st1.out (some p.1) (st1.text ++ p.2)

/-- The final flush after the loop: `if current_text:` emit the last turn. -/
def finishG {α : Type} (emit : String → List String → α) (st : GSt α) : List α :=
  if st.text = [] then st.out else st.out ++ [emit (labelOf st.cur) st.text]

/-- The whole merge loop over a pair stream, from the empty initial state. -/
def runG {α : Type} (emit : String → List String → α)
    (pairs : List (String × List String)) : List α :=
  finishG emit (pairs.foldl (stepG emit) (GSt.mk [] none []))

/-- The Turn Aggregator: the merge loop, recording flushed turns. -/
def aggregate (pairs : List (String × List String)) : List Turn :=
  runG Turn.mk pairs

/-- Aggregation and rendering fused, as in the source:
`''.join(transcript_parts).strip()`. -/
def renderPairs (names : List (String × String))
    (pairs : List (String × List String)) : String :=
  pyStrip (String.join (runG (renderPart names) pairs))

/-- Schema B `process_transcript` (file path reading and interactive naming
excluded; `speaker_names` supplied).  Accessing `data['results']` or
`...['audio_segments']` with the key absent raises `KeyError`.  Each segment
contributes the pair `(segment['speaker_label'], [segment['transcript']])`
(the loop appends one fragment per segment). -/
def processB (p : PayloadB) (names : List (String × String)) :
    Except PyErr String :=
  match p.results with
  | none => .error .keyError
  | some r =>
    match r.audio_segments with
    | none => .error .keyError
    | some segs =>
      .ok (renderPairs names (segs.map fun sg => (sg.speaker_label, [sg.transcript])))

/-- One step of the item scan inside a Schema A segment: skip items lacking
either timestamp, test `item_start >= start_time and item_end <= end_time`,
and on a match append `item['alternatives'][0]['content']` (an empty
alternatives list raises `IndexError`, modelled as `none`). -/
def matchStep (s e : ℚ) (acc : List String) (it : WordItem) :
    Option (List String) :=
  match it.start_time, it.end_time with
  | some a, some b =>
    if a ≥ s ∧ b ≤ e then
      match it.alternatives.head? with
      | some c => some (acc ++ [c])
      | none => none
    else some acc
  | _, _ => some acc

/-- The Interval Matcher: scan the full item stream for one segment window. -/
def matchSegment (items : List WordItem) (s e : ℚ) : Option (List String) :=
  items.foldlM (matchStep s e) []

/-- The claim-side selector for the matcher: an item participates exactly when
it carries both times and its window is contained in the segment window, and
then contributes its first candidate. -/
def matchSel (s e : ℚ) (it : WordItem) : Option String :=
  match it.start_time, it.end_time with
  | some a, some b => if a ≥ s ∧ b ≤ e then it.alternatives.head? else none
  | _, _ => none

/-- Speaker-Count Resolver of the Schema A script:
`int(...['speakers_count'])` when the key is present (`ValueError` when
non-numeric, modelled by `String.toInt? = none`), else the size of the set of
distinct `speaker_label`s over `...['segments']` (`KeyError` when the segment
list is absent). -/
def numSpeakersE (lb : LabelsBlock) : Except PyErr Int :=
  match lb.speakers_count with
  | some sc =>
    match sc.toInt? with
    | some n => .ok n
    | none => .error .valueError
  | none =>
    match lb.segments with
    | none => .error .keyError
    | some segs => .ok (((segs.map SegA.speaker_label).toFinset.card : Nat) : Int)

/-- One iteration of the Schema A segment loop: a segment without an `'items'`
key is skipped before anything else is read; otherwise the item stream is
scanned for the segment window and the merge step runs on
`(segment['speaker_label'], matched contents)`. -/
def stepA (names : List (String × String)) (items : List WordItem)
    (st : GSt String) (seg : SegA) : Option (GSt String) :=
  if seg.hasItems then
    (matchSegment items seg.start_time seg.end_time).map
      (fun ws => stepG (renderPart names) st (seg.speaker_label, ws))
  else some st

/-- Schema A `process_transcript` (AWS fetching and interactive naming
excluded; `speaker_names` supplied).  The count resolver runs first (its
errors propagate), then the segment loop, then
`''.join(transcript_parts).strip()`. -/
def processA (p : PayloadA) (names : List (String × String)) :
    Except PyErr String :=
  match p.results with
  | none => .error .keyError
  | some r =>
    match r.speaker_labels with
    | none => .error .keyError
    | some lb =>
      match numSpeakersE lb with
      | .error e => .error e
      | .ok _ =>
        match lb.segments with
        | none => .error .keyError
        | some segs =>
          match segs.foldlM (stepA names r.items) (GSt.mk [] none []) with
          | none => .error .indexError
          | some st => .ok (pyStrip (String.join (finishG (renderPart names) st)))

/-- Claim-side description of one merge of a pair into a run decomposition. -/
def mergeRun (p : String × List String) :
    List (String × List String) → List (String × List String)
  | [] => [p]
  | q :: qs => if p.1 = q.1 then (p.1, p.2 ++ q.2) :: qs else p :: q :: qs

/-- Claim-side decomposition of a pair stream into its maximal contiguous
same-speaker runs, each with its accumulated fragments in order. -/
def specRuns : List (String × List String) → List (String × List String)
  | [] => []
  | p :: ps => mergeRun p (specRuns ps)

/-- Claim-side account of which runs are emitted: every run except that a
final run with empty accumulated text is dropped. -/
def specEmit : List (String × List String) → List (String × List String)
  | [] => []
  | [q] => if q.2 = [] then [] else [q]
  | q :: r :: rs => q :: specEmit (r :: rs)

/-- The claim's turn count: maximal contiguous same-speaker runs with
non-empty accumulated text. -/
def specTurnCount (pairs : List (String × List String)) : Nat :=
  ((specRuns pairs).filter (fun q => !q.2.isEmpty)).length

/-- All word items of a stream carry at least one alternative (so
`item['alternatives'][0]` cannot raise). -/
def altsOk (items : List WordItem) : Bool :=
  items.all (fun it => !it.alternatives.isEmpty)

/-- `altsOk` for whatever item stream a Schema A payload carries. -/
def payloadAltsOk (p : PayloadA) : Bool :=
  match p.results with
  | none => true
  | some r => altsOk r.items

/-- Claim-side malformedness of a Schema A payload: `results` or
`results.speaker_labels` absent, the explicit count present but non-numeric,
or the segment list absent (a wrong-shaped `speaker_labels`). -/
def specMalformedA (p : PayloadA) : Bool :=
  match p.results with
  | none => true
  | some r =>
    match r.speaker_labels with
    | none => true
    | some lb =>
      (match lb.speakers_count with
       | some sc => sc.toInt?.isNone
       | none => false) || lb.segments.isNone

/-- Claim-side malformedness of a Schema B payload: `results` or
`results.audio_segments` absent. -/
def specMalformedB (p : PayloadB) : Bool :=
  match p.results with
  | none => true
  | some r => r.audio_segments.isNone

/-- Whether processing failed. -/
def isError {α : Type} : Except PyErr α → Bool
  | .error _ => true
  | .ok _ => false

section Lemmas

lemma mergeRun_mergeRun (s : String) (tx w : List String)
    (M : List (String × List String)) :
    mergeRun (s, tx) (mergeRun (s, w) M) = mergeRun (s, tx ++ w) M := by
  cases M with
  | nil => simp [mergeRun]
  | cons q qs =>
    by_cases h : s = q.1
    · simp [mergeRun, h, List.append_assoc]
    · simp [mergeRun, h]

lemma mergeRun_head (p : String × List String) (L : List (String × List String)) :
    ∃ w M, mergeRun p L = (p.1, w) :: M := by
  cases L with
  | nil => exact ⟨p.2, [], rfl⟩
  | cons q qs =>
    by_cases h : p.1 = q.1
    · exact ⟨p.2 ++ q.2, qs, by simp [mergeRun, h]⟩
    · exact ⟨p.2, q :: qs, by simp [mergeRun, h]⟩

lemma foldG_runs {α : Type} (emit : String → List String → α) :
    ∀ (pairs : List (String × List String)) (c : String) (tx : List String)
      (out : List α),
      finishG emit (pairs.foldl (stepG emit) (GSt.mk out (some c) tx))
        = out ++ (specEmit (specRuns ((c, tx) :: pairs))).map (fun q => emit q.1 q.2) := by
  intro pairs
  induction pairs with
  | nil =>
    intro c tx out
    by_cases h : tx = [] <;>
      simp [finishG, specRuns, mergeRun, specEmit, labelOf, h]
  | cons p rest ih =>
    obtain ⟨ps, pw⟩ := p
    intro c tx out
    rw [List.foldl_cons]
    by_cases h : c = ps
    · have hstep : stepG emit (GSt.mk out (some c) tx) (ps, pw)
          = GSt.mk out (some ps) (tx ++ pw) := by
        simp [stepG, h]
      rw [hstep, ih]
      have hr : specRuns ((c, tx) :: (ps, pw) :: rest)
          = specRuns ((ps, tx ++ pw) :: rest) := by
        subst h
        show mergeRun (c, tx) (mergeRun (c, pw) (specRuns rest))
          = mergeRun (c, tx ++ pw) (specRuns rest)
        exact mergeRun_mergeRun c tx pw (specRuns rest)
      rw [hr]
    · have hstep : stepG emit (GSt.mk out (some c) tx) (ps, pw)
          = GSt.mk (out ++ [emit c tx]) (some ps) pw := by
        simp [stepG, h]
      rw [hstep, ih]
      obtain ⟨w2, M, hM⟩ := mergeRun_head (ps, pw) (specRuns rest)
      have h1 : specRuns ((ps, pw) :: rest) = (ps, w2) :: M := hM
      have h2 : specRuns ((c, tx) :: (ps, pw) :: rest)
          = (c, tx) :: (ps, w2) :: M := by
        show mergeRun (c, tx) (specRuns ((ps, pw) :: rest)) = _
        rw [h1]
        simp [mergeRun, h]
      rw [h1, h2]
      simp [specEmit, List.append_assoc]

lemma runG_runs {α : Type} (emit : String → List String → α)
    (pairs : List (String × List String)) :
    runG emit pairs = (specEmit (specRuns pairs)).map (fun q => emit q.1 q.2) := by
  cases pairs with
  | nil => rfl
  | cons p rest =>
    obtain ⟨ps, pw⟩ := p
    have h0 : stepG emit (GSt.mk [] none []) (ps, pw)
        = GSt.mk [] (some ps) pw := by
      simp [stepG]
    show finishG emit (((ps, pw) :: rest).foldl (stepG emit) (GSt.mk [] none []))
      = _
    rw [List.foldl_cons, h0, foldG_runs]
    simp

lemma string_empty_append (s : String) : "" ++ s = s := by
  cases s with
  | mk data => rfl

lemma string_join_singleton (s : String) : String.join [s] = s := by
  show "" ++ s = s
  exact string_empty_append s

end Lemmas

section MatcherLemmas

lemma foldlM_matchStep (s e : ℚ) :
    ∀ (items : List WordItem) (acc : List String), altsOk items = true →
      List.foldlM (matchStep s e) acc items
        = some (acc ++ items.filterMap (matchSel s e)) := by
  intro items
  induction items with
  | nil => intro acc _; simp
  | cons it rest ih =>
    intro acc hok
    simp only [altsOk, List.all_cons, Bool.and_eq_true] at hok
    obtain ⟨h1, h2⟩ := hok
    have h2' : altsOk rest = true := h2
    rw [List.foldlM_cons]
    cases hst : it.start_time with
    | none =>
      have hstep : matchStep s e acc it = some acc := by simp [matchStep, hst]
      have hsel : matchSel s e it = none := by simp [matchSel, hst]
      rw [hstep]
      show List.foldlM (matchStep s e) acc rest = _
      rw [ih acc h2']
      simp [List.filterMap_cons, hsel]
    | some a =>
      cases hen : it.end_time with
      | none =>
        have hstep : matchStep s e acc it = some acc := by
          simp [matchStep, hst, hen]
        have hsel : matchSel s e it = none := by simp [matchSel, hst, hen]
        rw [hstep]
        show List.foldlM (matchStep s e) acc rest = _
        rw [ih acc h2']
        simp [List.filterMap_cons, hsel]
      | some b =>
        by_cases hc : a ≥ s ∧ b ≤ e
        · obtain ⟨c, cs, hcs⟩ : ∃ c cs, it.alternatives = c :: cs := by
            cases halt : it.alternatives with
            | nil => rw [halt] at h1; simp at h1
            | cons c cs => exact ⟨c, cs, rfl⟩
          have hstep : matchStep s e acc it = some (acc ++ [c]) := by
            simp [matchStep, hst, hen, hc, hcs]
          have hsel : matchSel s e it = some c := by
            simp [matchSel, hst, hen, hc, hcs]
          rw [hstep]
          show List.foldlM (matchStep s e) (acc ++ [c]) rest = _
          rw [ih (acc ++ [c]) h2']
          simp [List.filterMap_cons, hsel, List.append_assoc]
        · have hstep : matchStep s e acc it = some acc := by
            simp [matchStep, hst, hen, hc]
          have hsel : matchSel s e it = none := by
            simp [matchSel, hst, hen, hc]
          rw [hstep]
          show List.foldlM (matchStep s e) acc rest = _
          rw [ih acc h2']
          simp [List.filterMap_cons, hsel]

lemma matchSegment_eq (items : List WordItem) (s e : ℚ)
    (h : altsOk items = true) :
    matchSegment items s e = some (items.filterMap (matchSel s e)) := by
  have hm := foldlM_matchStep s e items [] h
  simpa [matchSegment] using hm

end MatcherLemmas

section SchemaALemmas

lemma stepA_skip (names : List (String × String)) (items : List WordItem)
    (st : GSt String) (seg : SegA) (h : seg.hasItems = false) :
    stepA names items st seg = some st := by
  simp [stepA, h]

lemma foldA_skip (names : List (String × String)) (items : List WordItem) :
    ∀ (mids rest : List SegA) (st : GSt String),
      mids.all (fun m => !m.hasItems) = true →
      List.foldlM (stepA names items) st (mids ++ rest)
        = List.foldlM (stepA names items) st rest := by
  intro mids
  induction mids with
  | nil => intro rest st _; rfl
  | cons m ms ih =>
    intro rest st hall
    simp only [List.all_cons, Bool.and_eq_true, Bool.not_eq_true'] at hall
    obtain ⟨hm, hms⟩ := hall
    rw [List.cons_append, List.foldlM_cons, stepA_skip names items st m hm]
    show List.foldlM (stepA names items) st (ms ++ rest) = _
    exact ih rest st hms

lemma foldA_some (names : List (String × String)) (items : List WordItem)
    (hit : altsOk items = true) :
    ∀ (segs : List SegA) (st : GSt String),
      ∃ st2, List.foldlM (stepA names items) st segs = some st2 := by
  intro segs
  induction segs with
  | nil => intro st; exact ⟨st, rfl⟩
  | cons seg rest ih =>
    intro st
    cases hseg : seg.hasItems with
    | false =>
      obtain ⟨st2, h2⟩ := ih st
      refine ⟨st2, ?_⟩
      rw [List.foldlM_cons, stepA_skip names items st seg hseg]
      show List.foldlM (stepA names items) st rest = _
      exact h2
    | true =>
      have hm := matchSegment_eq items seg.start_time seg.end_time hit
      have hstep : stepA names items st seg
          = some (stepG (renderPart names) st
              (seg.speaker_label, items.filterMap
                (matchSel seg.start_time seg.end_time))) := by
        simp [stepA, hseg, hm]
      obtain ⟨st2, h2⟩ := ih (stepG (renderPart names) st
        (seg.speaker_label, items.filterMap
          (matchSel seg.start_time seg.end_time)))
      refine ⟨st2, ?_⟩
      rw [List.foldlM_cons, hstep]
      show List.foldlM (stepA names items) _ rest = _
      exact h2

end SchemaALemmas

section RunsLemmas

lemma specRuns_const (s : String) :
    ∀ (txts : List String) (t : String),
      specRuns ((t :: txts).map fun x => (s, [x])) = [(s, t :: txts)] := by
  intro txts
  induction txts with
  | nil => intro t; simp [specRuns, mergeRun]
  | cons r rs ih =>
    intro t
    show mergeRun (s, [t]) (specRuns ((r :: rs).map fun x => (s, [x])))
      = [(s, t :: r :: rs)]
    rw [ih r]
    simp [mergeRun]

end RunsLemmas

/-- C1 (counterexample): the Turn Aggregator, fed the pair stream
`[(spk_0, no fragments), (spk_1, ["hi"])]` (as a Schema A segment whose
matcher returned nothing produces), emits two turns — the mid-stream empty
run of `spk_0` is flushed with an empty body when the speaker changes — while
the number of maximal same-speaker runs with non-empty accumulated text is
one; the emitted `spk_0` turn has an empty body. -/
theorem turn_count_invariant_cex :
    ¬ ((aggregate [("spk_0", ([] : List String)), ("spk_1", ["hi"])]).length
          = specTurnCount [("spk_0", []), ("spk_1", ["hi"])] ∧
        ∀ t ∈ aggregate [("spk_0", ([] : List String)), ("spk_1", ["hi"])],
          t.words ≠ []) := by decide

/-- C1 (amended): the emitted Turns are exactly the maximal contiguous
same-speaker runs of the input pair stream, each with its accumulated
fragments in order, except that a final run whose accumulated text is empty
is dropped; in particular the number of emitted Turns is the number of
maximal runs minus one exactly when the final run's text is empty, and a
non-final run with empty accumulated text is emitted as an empty-bodied
Turn. -/
theorem turn_count_invariant_amended (pairs : List (String × List String)) :
    aggregate pairs
      = (specEmit (specRuns pairs)).map (fun q => Turn.mk q.1 q.2) :=
  runG_runs Turn.mk pairs

/-- C2: on any word-item stream whose items all carry at least one candidate,
the Interval Matcher returns exactly the first-candidate contents, in
item-stream order, of those items carrying both timestamps whose window is
fully contained in the segment window (`matchSel`); items lacking a
timestamp, or only partially overlapping, contribute nothing. -/
theorem interval_matcher_containment (items : List WordItem) (s e : ℚ)
    (h : altsOk items = true) :
    matchSegment items s e = some (items.filterMap (matchSel s e)) :=
  matchSegment_eq items s e h

/-- Witness for C2: on the stream `[(0,1,"a"), (1,2,"b"), (1,3,"c"),
(no start,"d")]` with segment window `[0,2]`, the matcher keeps `a` and `b`,
excludes the partially-overlapping `c`, and skips the timestamp-less `d`. -/
theorem interval_matcher_containment_witness :
    altsOk [⟨some 0, some 1, ["a"]⟩, ⟨some 1, some 2, ["b"]⟩,
        ⟨some 1, some 3, ["c"]⟩, ⟨none, some 1, ["d"]⟩] = true ∧
    matchSegment [⟨some 0, some 1, ["a"]⟩, ⟨some 1, some 2, ["b"]⟩,
        ⟨some 1, some 3, ["c"]⟩, ⟨none, some 1, ["d"]⟩] 0 2
      = some ["a", "b"] := by
  refine ⟨by decide, ?_⟩
  rw [interval_matcher_containment _ 0 2 (by decide)]
  decide

/-- C3 (counterexample): on the Schema B segments
`[(spk_0,"hello"), (spk_1,"hi"), (spk_0,"bye")]` with names
`{spk_0: Alice, spk_1: Bob}`, the program does not produce the claimed
blank-line-separated string: each part carries a single `"\n"` prefix and the
parts are joined with `''.join`, so turns are separated by one newline, not a
blank line. -/
theorem schema_b_scenario_cex :
    processB ⟨some ⟨some [⟨"spk_0", "hello"⟩, ⟨"spk_1", "hi"⟩,
        ⟨"spk_0", "bye"⟩]⟩⟩ [("spk_0", "Alice"), ("spk_1", "Bob")]
      ≠ .ok "Alice: hello\n\nBob: hi\n\nAlice: bye" := by
  intro h
  have h1 : processB ⟨some ⟨some [⟨"spk_0", "hello"⟩, ⟨"spk_1", "hi"⟩,
      ⟨"spk_0", "bye"⟩]⟩⟩ [("spk_0", "Alice"), ("spk_1", "Bob")]
      = .ok "Alice: hello\nBob: hi\nAlice: bye" := rfl
  rw [h1] at h
  injection h with h2
  exact absurd h2 (by decide)

/-- C3 (amended): the rendered output is exactly
`"Alice: hello\nBob: hi\nAlice: bye"` — each turn renders as `"Name: words"`,
turns are separated by a single newline (not a blank line), there is no
trailing newline, and same-speaker runs separated by another speaker are not
merged (Alice appears as two distinct turns). -/
theorem schema_b_scenario_amended :
    processB ⟨some ⟨some [⟨"spk_0", "hello"⟩, ⟨"spk_1", "hi"⟩,
        ⟨"spk_0", "bye"⟩]⟩⟩ [("spk_0", "Alice"), ("spk_1", "Bob")]
      = .ok "Alice: hello\nBob: hi\nAlice: bye" := rfl

/-- C4: a Schema B run of consecutive segments all carrying the same speaker
label is merged by the aggregation loop into a single Turn whose words are
the segments' text fragments in input order, and the rendered transcript is
that one turn. -/
theorem same_speaker_merge (names : List (String × String)) (s : String)
    (txts : List String) (h : txts ≠ []) :
    aggregate ((txts.map (AudioSegment.mk s)).map
        (fun sg => (sg.speaker_label, [sg.transcript]))) = [Turn.mk s txts] ∧
    processB ⟨some ⟨some (txts.map (AudioSegment.mk s))⟩⟩ names
      = .ok (pyStrip (renderPart names s txts)) := by
  obtain ⟨t, rest, rfl⟩ : ∃ t rest, txts = t :: rest := by
    cases txts with
    | nil => exact absurd rfl h
    | cons t rest => exact ⟨t, rest, rfl⟩
  have hmap : (((t :: rest).map (AudioSegment.mk s)).map
      (fun sg => (sg.speaker_label, [sg.transcript])))
      = (t :: rest).map (fun x => (s, [x])) := by
    simp [List.map_map, Function.comp]
  have hruns := specRuns_const s rest t
  constructor
  · show runG Turn.mk _ = _
    rw [hmap, runG_runs, hruns]
    simp [specEmit]
  · show Except.ok (renderPairs names _) = _
    have hr : renderPairs names (((t :: rest).map (AudioSegment.mk s)).map
        (fun sg => (sg.speaker_label, [sg.transcript])))
        = pyStrip (renderPart names s (t :: rest)) := by
      show pyStrip (String.join (runG (renderPart names) _)) = _
      rw [hmap, runG_runs, hruns]
      simp [specEmit, string_join_singleton]
    exact congrArg Except.ok hr

/-- Witness for C4: the segments `[(spk_0,"hi"), (spk_0,"there")]` aggregate
to the single Turn `(spk_0, ["hi","there"])`, not two. -/
theorem same_speaker_merge_witness :
    aggregate ((["hi", "there"].map (AudioSegment.mk "spk_0")).map
        (fun sg => (sg.speaker_label, [sg.transcript])))
      = [Turn.mk "spk_0" ["hi", "there"]] :=
  (same_speaker_merge [] "spk_0" ["hi", "there"] (by decide)).1

/-- C5: with no explicit `speakers_count` field, the Speaker-Count Resolver
returns the cardinality of the set of distinct speaker labels over the
segments; on an empty segment list it returns 0 (an `.ok` result, never an
error), and on labels `spk_0, spk_1, spk_0` it returns 2. -/
theorem speaker_count_fallback :
    (∀ (segs : List SegA),
      numSpeakersE ⟨none, some segs⟩
        = .ok (((segs.map SegA.speaker_label).toFinset.card : Nat) : Int)) ∧
    numSpeakersE ⟨none, some []⟩ = .ok 0 ∧
    numSpeakersE ⟨none, some [⟨"spk_0", 0, 0, true⟩, ⟨"spk_1", 0, 0, true⟩,
        ⟨"spk_0", 0, 0, true⟩]⟩ = .ok 2 :=
  ⟨fun _ => rfl, rfl, rfl⟩

/-- C6: processing fails exactly on the malformed payloads the claim names.
Schema A (given every item carries a candidate, so the matcher itself cannot
raise): failure iff `results` or `results.speaker_labels` is absent, the
explicit `speakers_count` is present but non-numeric, or the segment list is
absent.  Schema B: failure iff `results` or `results.audio_segments` is
absent.  The `Except` result propagates the error to the caller. -/
theorem malformed_payload_iff :
    (∀ (p : PayloadA) (names : List (String × String)),
        payloadAltsOk p = true →
        (isError (processA p names) = true ↔ specMalformedA p = true)) ∧
    (∀ (p : PayloadB) (names : List (String × String)),
        isError (processB p names) = true ↔ specMalformedB p = true) := by
  constructor
  · rintro ⟨results⟩ names hok
    cases results with
    | none => simp [processA, specMalformedA, isError]
    | some r =>
      obtain ⟨labels, items⟩ := r
      cases labels with
      | none => simp [processA, specMalformedA, isError]
      | some lb =>
        obtain ⟨sc, segs⟩ := lb
        have hok' : altsOk items = true := by simpa [payloadAltsOk] using hok
        cases sc with
        | some scv =>
          cases hto : scv.toInt? with
          | none => simp [processA, numSpeakersE, specMalformedA, isError, hto]
          | some n =>
            cases segs with
            | none =>
              simp [processA, numSpeakersE, specMalformedA, isError, hto]
            | some segl =>
              obtain ⟨st2, h2⟩ :=
                foldA_some names items hok' segl (GSt.mk [] none [])
              simp [processA, numSpeakersE, specMalformedA, isError, hto, h2]
        | none =>
          cases segs with
          | none => simp [processA, numSpeakersE, specMalformedA, isError]
          | some segl =>
            obtain ⟨st2, h2⟩ :=
              foldA_some names items hok' segl (GSt.mk [] none [])
            simp [processA, numSpeakersE, specMalformedA, isError, h2]
  · rintro ⟨results⟩ names
    cases results with
    | none => simp [processB, specMalformedB, isError]
    | some r =>
      obtain ⟨segs⟩ := r
      cases segs with
      | none => simp [processB, specMalformedB, isError]
      | some segl => simp [processB, specMalformedB, isError]

/-- Witness for C6: a payload with no `results` key fails, in both schemas. -/
theorem malformed_payload_iff_witness :
    isError (processA ⟨none⟩ []) = true ∧ isError (processB ⟨none⟩ []) = true :=
  ⟨(malformed_payload_iff.1 ⟨none⟩ [] rfl).mpr rfl,
   (malformed_payload_iff.2 ⟨none⟩ []).mpr rfl⟩

/-- C7: a turn whose speaker label is not in the name map renders with the
raw label (`dict.get(label, label)` falls back to the label, totally — no
lookup can raise), and Schema B processing succeeds on any well-shaped
payload regardless of the supplied map. -/
theorem unmapped_label_renders_raw :
    (∀ (names : List (String × String)) (speaker : String)
        (words : List String), names.lookup speaker = none →
        renderPart names speaker words
          = "\n" ++ speaker ++ ": " ++ String.intercalate " " words) ∧
    (∀ (segs : List AudioSegment) (names : List (String × String)),
        processB ⟨some ⟨some segs⟩⟩ names
          = .ok (renderPairs names
              (segs.map fun sg => (sg.speaker_label, [sg.transcript])))) := by
  constructor
  · intro names speaker words h
    show "\n" ++ ((names.lookup speaker).getD speaker) ++ ": " ++ _ = _
    rw [h]
    rfl
  · intro segs names
    rfl

/-- Witness for C7: with the empty name map, `spk_0` renders as itself. -/
theorem unmapped_label_witness :
    renderPart [] "spk_0" ["hello"] = "\nspk_0: hello" := by
  rw [unmapped_label_renders_raw.1 [] "spk_0" ["hello"] rfl]
  decide

/-- C8: a payload with an empty segment list (and no explicit count field)
processes to the empty transcript string in both schemas, the fallback
speaker count resolves to 0, and no error is raised. -/
theorem empty_segments_empty_output :
    (∀ (names : List (String × String)) (its : List WordItem),
      processA ⟨some ⟨some ⟨none, some []⟩, its⟩⟩ names = .ok "") ∧
    numSpeakersE ⟨none, some []⟩ = .ok 0 ∧
    (∀ (names : List (String × String)),
      processB ⟨some ⟨some []⟩⟩ names = .ok "") :=
  ⟨fun _ _ => rfl, rfl, fun _ => rfl⟩

/-- C9: in Schema A, a segment without an `'items'` key is skipped before its
speaker label is read, so it neither flushes a turn nor updates the current
speaker: two `hasItems` segments with the same label separated only by
items-less segments (of any label) produce one single merged turn, and the
output equals that of the input with the items-less segments removed. -/
theorem itemless_segments_skipped
    (names : List (String × String)) (items : List WordItem)
    (s1 s2 : SegA) (mids : List SegA) (w1 w2 : List String)
    (h1 : s1.hasItems = true) (h2 : s2.hasItems = true)
    (hsp : s1.speaker_label = s2.speaker_label)
    (hmids : mids.all (fun m => !m.hasItems) = true)
    (hm1 : matchSegment items s1.start_time s1.end_time = some w1)
    (hm2 : matchSegment items s2.start_time s2.end_time = some w2)
    (hne : w1 ++ w2 ≠ []) :
    processA ⟨some ⟨some ⟨none, some (s1 :: (mids ++ [s2]))⟩, items⟩⟩ names
        = .ok (pyStrip (renderPart names s1.speaker_label (w1 ++ w2))) ∧
    processA ⟨some ⟨some ⟨none, some (s1 :: (mids ++ [s2]))⟩, items⟩⟩ names
        = processA ⟨some ⟨some ⟨none, some [s1, s2]⟩, items⟩⟩ names := by
  have main : ∀ (mids2 : List SegA), mids2.all (fun m => !m.hasItems) = true →
      processA ⟨some ⟨some ⟨none, some (s1 :: (mids2 ++ [s2]))⟩, items⟩⟩ names
        = .ok (pyStrip (renderPart names s1.speaker_label (w1 ++ w2))) := by
    intro mids2 hmids2
    have hfold : (s1 :: (mids2 ++ [s2])).foldlM (stepA names items)
        (GSt.mk [] none [])
        = some (GSt.mk [] (some s2.speaker_label) (w1 ++ w2)) := by
      rw [List.foldlM_cons]
      have hs1 : stepA names items (GSt.mk [] none []) s1
          = some (GSt.mk [] (some s1.speaker_label) w1) := by
        simp [stepA, h1, hm1, stepG]
      rw [hs1]
      show List.foldlM (stepA names items)
        (GSt.mk [] (some s1.speaker_label) w1) (mids2 ++ [s2]) = _
      rw [foldA_skip names items mids2 [s2] _ hmids2, List.foldlM_cons]
      have hs2 : stepA names items (GSt.mk [] (some s1.speaker_label) w1) s2
          = some (GSt.mk [] (some s2.speaker_label) (w1 ++ w2)) := by
        simp [stepA, h2, hm2, stepG, hsp]
      rw [hs2]
      rfl
    simp [processA, numSpeakersE, hfold, finishG, hne, labelOf,
      string_join_singleton, hsp]
  refine ⟨main mids hmids, ?_⟩
  exact (main mids hmids).trans (main [] rfl).symm

/-- C10: each Schema A segment independently scans the whole item stream, so
an item whose window is contained in a segment's window contributes its first
candidate to that segment regardless of other segments; concretely, one item
contained in two overlapping segment windows appears twice in the output. -/
theorem overlapping_segments_duplicate :
    (∀ (items : List WordItem) (it : WordItem) (a b s e : ℚ),
        altsOk items = true → it ∈ items →
        it.start_time = some a → it.end_time = some b →
        a ≥ s → b ≤ e →
        ∃ (ws : List String) (c : String),
          matchSegment items s e = some ws ∧
          it.alternatives.head? = some c ∧ c ∈ ws) ∧
    processA ⟨some ⟨some ⟨none, some [⟨"spk_0", 0, 3, true⟩,
        ⟨"spk_1", 0, 3, true⟩]⟩, [⟨some 1, some 2, ["hello"]⟩]⟩⟩ []
      = .ok "spk_0: hello\nspk_1: hello" := by
  constructor
  · intro items it a b s e hok hmem hst hen has hbe
    refine ⟨items.filterMap (matchSel s e), ?_⟩
    have hok2 : items.all (fun x => !x.alternatives.isEmpty) = true := hok
    have halts : it.alternatives ≠ [] := by
      have hx := List.all_eq_true.mp hok2 it hmem
      simpa using hx
    obtain ⟨c, hc⟩ : ∃ c, it.alternatives.head? = some c := by
      cases halt : it.alternatives with
      | nil => exact absurd halt halts
      | cons c cs => exact ⟨c, rfl⟩
    refine ⟨c, matchSegment_eq items s e hok, hc, ?_⟩
    exact List.mem_filterMap.mpr
      ⟨it, hmem, by simp [matchSel, hst, hen, has, hbe, hc]⟩
  · rfl

/-- Witness for C10: the single item `(1,2,"hello")` is matched by the
segment window `[0,3]`. -/
theorem overlapping_segments_witness :
    ∃ (ws : List String) (c : String),
      matchSegment [⟨some 1, some 2, ["hello"]⟩] 0 3 = some ws ∧
      (WordItem.mk (some 1) (some 2) ["hello"]).alternatives.head? = some c ∧
      c ∈ ws :=
  overlapping_segments_duplicate.1 [⟨some 1, some 2, ["hello"]⟩]
    ⟨some 1, some 2, ["hello"]⟩ 1 2 0 3 (by decide) (by simp) rfl rfl
    (by decide) (by decide)

/-- Witness for C9: two `spk_0` segments separated by an items-less `spk_1`
segment yield the single merged turn `"spk_0: hi there"`. -/
theorem itemless_segments_witness :
    processA ⟨some ⟨some ⟨none, some [⟨"spk_0", 0, 1, true⟩,
        ⟨"spk_1", 1, 2, false⟩, ⟨"spk_0", 2, 3, true⟩]⟩,
        [⟨some 0, some 1, ["hi"]⟩, ⟨some 2, some 3, ["there"]⟩]⟩⟩ []
      = .ok "spk_0: hi there" := by
  have h := itemless_segments_skipped []
    [⟨some 0, some 1, ["hi"]⟩, ⟨some 2, some 3, ["there"]⟩]
    ⟨"spk_0", 0, 1, true⟩ ⟨"spk_0", 2, 3, true⟩ [⟨"spk_1", 1, 2, false⟩]
    ["hi"] ["there"] rfl rfl rfl (by decide) (by decide) (by decide) (by decide)
  exact h.1.trans (congrArg Except.ok (by decide))
